import Mathlib

/-!
Shallow embedding of the Linode provider backend (src/spread/linode.go).

Remote calls (`l.do` over HTTP) are modelled as oracle inputs: each function
takes the decoded outcome of every wire call it performs as an explicit
environment argument, and returns, besides its Go return values, the list of
side-effecting rollback/teardown calls it issued (`Effect`).  Go panics
(out-of-range indexing, nil-pointer dereference) are modelled by the
`GoOutcome.panics` constructor.  Go `error` values are modelled by `GoErr`,
with the distinguished `FatalError` wrapper as its own constructor.
-/

namespace Spread

/-- Outcome of running a piece of Go code: either a value, or a runtime panic
(index out of range, nil-pointer dereference). -/
inductive GoOutcome (α : Type) where
  | ok : α → GoOutcome α
  | panics : GoOutcome α
deriving DecidableEq

/-- A Go `error` value: either a plain `fmt.Errorf` error carrying its
message, or the distinguished `FatalError` wrapper (linode.go `FatalError`)
whose message is the wrapped error's message. -/
inductive GoErr where
  | msg : String → GoErr
  | fatal : String → GoErr
deriving DecidableEq

/-- Text of an error, as produced by the `%v`/`%s` verbs on a Go error. -/
def GoErr.text : GoErr → String
  | .msg s => s
  | .fatal s => s

/-- Whether an error is the distinguished `FatalError` (a Go type assertion
`err.(FatalError)`). -/
def GoErr.isFatal : GoErr → Bool
  | .fatal _ => true
  | .msg _ => false

/-- Text of a possibly-nil Go error under `%v` (a nil error prints as
`<nil>`). -/
def optErrText : Option GoErr → String
  | none => "<nil>"
  | some e => e.text

/-- A side-effecting provider call issued during teardown or rollback.  The
payloads identify the target: server ID for shutdown, config ID for config
removal, and the disk-ID list for disk removal. -/
inductive Effect where
  | shutdown : Int → Effect
  | removeConfig : Int → Effect
  | removeDisks : List Int → Effect
deriving DecidableEq

/-! ### String helpers mirroring the Go standard library calls used -/

/-- Models `strings.ToLower` on the ASCII labels and messages this code
handles (Lean's `Char.toLower` lower-cases exactly the ASCII range). -/
def goToLower (s : String) : String :=
  String.mk (s.data.map Char.toLower)

/-- Models `strings.Fields`: split around runs of whitespace, dropping empty
fields.  `acc` holds the characters of the current field, reversed. -/
def fieldsAux : List Char → List Char → List String
  | [], [] => []
  | [], acc => [String.mk acc.reverse]
  | c :: cs, acc =>
    if c.isWhitespace then
      match acc with
      | [] => fieldsAux cs []
      | _ => String.mk acc.reverse :: fieldsAux cs []
    else fieldsAux cs (c :: acc)

/-- Models `strings.Fields` on a string. -/
def goFields (s : String) : List String :=
  fieldsAux s.data []

/-- Models `strings.HasPrefix`. -/
def strStartsWith (s p : String) : Bool :=
  List.isPrefixOf p.data s.data

/-- Models `strings.ToLower(string(m[0])) + m[1:]` on a nonempty message `m`:
lower-case the first character, keep the rest.  (The source indexes the first
byte; the messages concerned are ASCII, where byte and character coincide.)
On an empty string the source panics before reaching this expression; callers
model that separately. -/
def goLowerFirst (s : String) : String :=
  match s.data with
  | [] => s
  | c :: cs => String.mk (Char.toLower c :: cs)

/-! ### Data model (linode.go struct types) -/

/-- Server power-state code `linodeBeingCreated`. -/
def linodeBeingCreated : Int := -1
/-- Server power-state code `linodeBrandNew`. -/
def linodeBrandNew : Int := 0
/-- Server power-state code `linodeRunning`. -/
def linodeRunning : Int := 1
/-- Server power-state code `linodePoweredOff`. -/
def linodePoweredOff : Int := 2

/-- One `(ERRORCODE, ERRORMESSAGE)` record of a response envelope
(`linodeError`). -/
structure linodeError where
  code : Int
  message : String
deriving DecidableEq

/-- The `ERRORARRAY` portion of a decoded response envelope
(`linodeResult`). -/
structure linodeResult where
  errors : List linodeError
deriving DecidableEq

/-- Models `linodeResult.err()`: return the first error record's message with
its first letter lower-cased, nil when the error list is empty.  Indexing
`Message[0]` on an empty message panics (out of range). -/
def linodeResult.err (r : linodeResult) : GoOutcome (Option GoErr) :=
  match r.errors with
  | [] => .ok none
  | e :: _ =>
    if e.message = "" then .panics
    else .ok (some (.msg (goLowerFirst e.message)))

/-- A provider machine record (`linodeServer`).  `img` is the `ImageID`
string; `addr`, `config`, `root`, `swap` make up the provisioned state. -/
structure linodeServer where
  id : Int
  label : String
  status : Int
  addr : String
  img : String
  config : Int
  root : Int
  swap : Int
deriving DecidableEq

/-- An asynchronous job handle (`linodeJob`). -/
structure linodeJob where
  jobID : Int
deriving DecidableEq

/-- A disk-creation sub-result's payload (`linodeDiskJob`). -/
structure linodeDiskJob where
  diskID : Int
  jobID : Int
deriving DecidableEq

/-- A decoded disk-creation sub-result (`linodeDiskJobResult`): the embedded
envelope plus a possibly-nil `DATA` pointer. -/
structure linodeDiskJobResult where
  result : linodeResult
  data : Option linodeDiskJob
deriving DecidableEq

/-- Job status as reported by `linode.job.list` (`linodeJobInfo`). -/
structure linodeJobInfo where
  jobID : Int
  linodeID : Int
  action : String
  label : String
  hostStart : String
  hostFinish : String
  hostSuccess : Int
  hostMessage : String
deriving DecidableEq

/-- Models `linodeJobInfo.err()`: nil while unfinished or on success;
otherwise the job message with its first letter lower-cased, or a generic
failed-silently message when the message is empty (this path guards the
empty-message case before indexing). -/
def linodeJobInfo.err (job : linodeJobInfo) : Option GoErr :=
  if job.hostSuccess = 1 ∨ job.hostFinish = "" then none
  else if job.hostMessage ≠ "" then some (.msg (goLowerFirst job.hostMessage))
  else some (.msg ("job " ++ toString job.jobID ++ " failed silently"))

/-- An IP record from `linode.ip.list` (`linodeIP`). -/
structure linodeIP where
  id : Int
  linodeID : Int
  isPublic : Int
  ipAddress : String
  rdnsName : String
deriving DecidableEq

/-- A distribution catalog record (`linodeDistro`).  `name` and `kernelID`
are back-filled by `cacheDistros`; the remaining fields come from the
provider. -/
structure linodeDistro where
  name : String
  kernelID : Int
  id : Int
  label : String
  minImageSize : Int
  vopsKernel : Int
  is64Bit : Int
  create : String
deriving DecidableEq

/-- A kernel catalog record (`linodeKernel`). -/
structure linodeKernel where
  id : Int
  isPVOPS : Int
  isXEN : Int
  isKVM : Int
  label : String
deriving DecidableEq

/-! ### Catalog cache (`distro`, `cacheDistros`) -/

/-- Mutable cache state held in the `linode` struct: the `distrosDone` flag
and the two cached lists. -/
structure LinodeState where
  distrosDone : Bool
  distrosCache : List linodeDistro
  kernelsCache : List linodeKernel
deriving DecidableEq

/-- Oracle for the two catalog fetches of `cacheDistros`: the decoded outcome
of the `avail.distributions` and `avail.kernels` calls on each retry attempt
(combining transport errors from `l.do` and envelope errors from
`result.err()` into one `Except`, as the retry loop does). -/
structure CacheEnv where
  distroAttempt : Nat → Except GoErr (List linodeDistro)
  kernelAttempt : Nat → Except GoErr (List linodeKernel)

/-- The `for retry := 0; retry < 3; retry++` loop of `cacheDistros`: try
attempt 0, stop at the first success, and after three failures surface the
outcome of the last attempt. -/
def retry3 {α : Type} (f : Nat → Except GoErr α) : Except GoErr α :=
  match f 0 with
  | .ok a => .ok a
  | .error _ =>
    match f 1 with
    | .ok a => .ok a
    | .error _ => f 2

/-- The kernel scan of `cacheDistros`: fold over the kernel list keeping the
ID of the last kernel whose label starts with "Latest 32 bit" and the last
whose label starts with "Latest 64 bit", each starting at -1.  Returns
`(latest32, latest64)`. -/
def scanLatest (kernels : List linodeKernel) : Int × Int :=
  kernels.foldl
    (fun p k =>
      let p := if strStartsWith k.label "Latest 64 bit" then (p.1, k.id) else p
      if strStartsWith k.label "Latest 32 bit" then (k.id, p.2) else p)
    (-1, -1)

/-- Spec-side characterization used to compare with `scanLatest`: the ID of
the last kernel in list order whose label starts with the given text, if
any. -/
def lastLabeled (p : String) : List linodeKernel → Option Int
  | [] => none
  | k :: ks =>
    match lastLabeled p ks with
    | some i => some i
    | none => if strStartsWith k.label p then some k.id else none

/-- Canonical name derivation of `cacheDistros`: lower-case the label, split
into whitespace-separated fields; with more than two fields and second field
"linux", join fields one and three, otherwise join fields one and two.  With
fewer than two fields the source panics indexing `label[1]` (`none`). -/
def distroName (label : String) : Option String :=
  match goFields (goToLower label) with
  | w0 :: w1 :: w2 :: _ =>
    if w1 = "linux" then some (w0 ++ "-" ++ w2) else some (w0 ++ "-" ++ w1)
  | [w0, w1] => some (w0 ++ "-" ++ w1)
  | _ => none

/-- Per-distribution back-fill of `cacheDistros`: assign the resolved kernel
ID by bitness and attach the canonical name (`none` = panic in name
derivation).  The source assigns the kernel ID before deriving the name; the
derivation reads only the label, so the two mutations commute and are folded
into one record update here. -/
def backfillDistro (latest32 latest64 : Int) (d : linodeDistro) :
    Option linodeDistro :=
  match distroName d.label with
  | some n =>
    if d.is64Bit = 1 then some { d with kernelID := latest64, name := n }
    else some { d with kernelID := latest32, name := n }
  | none => none

/-- The back-fill loop of `cacheDistros` over the whole cached distribution
list. -/
def backfillAll (latest32 latest64 : Int) :
    List linodeDistro → Option (List linodeDistro)
  | [] => some []
  | d :: ds =>
    match backfillDistro latest32 latest64 d, backfillAll latest32 latest64 ds with
    | some d2, some ds2 => some (d2 :: ds2)
    | _, _ => none

/-- Models `cacheDistros`: fetch the distribution list (3 attempts), then the
kernel list (3 attempts), wrapping the surfaced fetch error; then locate the
latest 32/64-bit kernels, failing when either is missing; then back-fill
kernel IDs and canonical names on every cached distribution.  Returns the
updated state (the source mutates `l` in place, so a kernel-fetch failure
still leaves the distribution list cached) and the returned error, if any.
It never touches `distrosDone`. -/
def cacheDistros (env : CacheEnv) (st : LinodeState) :
    GoOutcome (LinodeState × Option GoErr) :=
  match retry3 env.distroAttempt with
  | .error e =>
    .ok (st, some (.msg ("cannot list Linode distributions: " ++ e.text)))
  | .ok ds =>
    match retry3 env.kernelAttempt with
    | .error e =>
      .ok ({ st with distrosCache := ds },
           some (.msg ("cannot list Linode kernels: " ++ e.text)))
    | .ok ks =>
      if (scanLatest ks).1 = -1 ∨ (scanLatest ks).2 = -1 then
        .ok ({ st with distrosCache := ds, kernelsCache := ks },
             some (.msg "cannot find latest Linode kernel"))
      else
        match backfillAll (scanLatest ks).1 (scanLatest ks).2 ds with
        | none => .panics
        | some ds2 =>
          .ok ({ st with distrosCache := ds2, kernelsCache := ks }, none)

/-- The resolution scan of `distro`: walk the cached list, skipping entries
whose canonical name differs from the requested system; return the first
64-bit match immediately, otherwise remember each match in `best` and return
the last one. -/
def scanDistros (system : String) :
    List linodeDistro → Option linodeDistro → Option linodeDistro
  | [], best => best
  | d :: ds, best =>
    if d.name ≠ system then scanDistros system ds best
    else if d.is64Bit = 1 then some d
    else scanDistros system ds (some d)

/-- Error message of a failed resolution.  The source's
`fmt.Errorf("cannot find system %s in Linode")` passes no argument for the
`%s` verb, so Go renders this literal text. -/
def noSystemMsg : String := "cannot find system %!s(MISSING) in Linode"

/-- Lookup portion of `distro` over the populated cache. -/
def lookupDistro (cache : List linodeDistro) (system : String) :
    Except GoErr linodeDistro :=
  match scanDistros system cache none with
  | some d => .ok d
  | none => .error (.msg noSystemMsg)

/-- Models `distro` (the image argument reduced to its `SystemID()` string):
under the cache lock, populate the cache unless `distrosDone` is set,
returning early on a population error (leaving `distrosDone` untouched);
otherwise set `distrosDone` and scan the cache for the requested system.
Returns the updated state and the result. -/
def distro (env : CacheEnv) (st : LinodeState) (system : String) :
    GoOutcome (LinodeState × Except GoErr linodeDistro) :=
  if st.distrosDone then
    let st2 := { st with distrosDone := true }
    .ok (st2, lookupDistro st2.distrosCache system)
  else
    match cacheDistros env st with
    | .panics => .panics
    | .ok (st1, some e) => .ok (st1, .error e)
    | .ok (st1, none) =>
      let st2 := { st1 with distrosDone := true }
      .ok (st2, lookupDistro st2.distrosCache system)

/-! ### Disk creation (`createDisk`) -/

/-- Result of the sub-result loop in `createDisk`: either the early success
return `(root, swap, nil)`, or fall-through/break with the `root` seen so far
and the final value of the `err` variable. -/
inductive DiskLoopOut where
  | early : Option linodeDiskJob → Option linodeDiskJob → DiskLoopOut
  | fell : Option linodeDiskJob → Option GoErr → DiskLoopOut
deriving DecidableEq

/-- The `for i, result := range results` loop of `createDisk`: index 0 is the
root sub-result (error breaks the loop; success stores `result.Data` and
continues); index 1 is the swap sub-result (error breaks; success returns
early).  `err` enters holding the error of the `l.do` call. -/
def diskLoop (doErr : Option GoErr) (results : List linodeDiskJobResult) :
    GoOutcome DiskLoopOut :=
  match results with
  | [] => .ok (.fell none doErr)
  | r0 :: rest0 =>
    match r0.result.err with
    | .panics => .panics
    | .ok (some e) => .ok (.fell none (some e))
    | .ok none =>
      match rest0 with
      | [] => .ok (.fell r0.data doErr)
      | r1 :: _ =>
        match r1.result.err with
        | .panics => .panics
        | .ok (some e) => .ok (.fell r0.data (some e))
        | .ok none => .ok (.early r0.data r1.data)

/-- Models `createDisk` from the decoded batch response onward: `distroRes`
is the outcome of the `l.distro` lookup, `doErr` the error of the batched
`l.do` call, `results` its decoded sub-results.  On fall-through, an
already-created root disk is removed, an empty batch overrides the pending
error, and the wrapped creation error is returned with no disk jobs. -/
def createDisk (image : String) (distroRes : Except GoErr linodeDistro)
    (doErr : Option GoErr) (results : List linodeDiskJobResult) :
    GoOutcome (Except GoErr (Option linodeDiskJob × Option linodeDiskJob) ×
               List Effect) :=
  match distroRes with
  | .error e => .ok (.error e, [])
  | .ok _ =>
    match diskLoop doErr results with
    | .panics => .panics
    | .ok (.early rootJob swapJob) => .ok (.ok (rootJob, swapJob), [])
    | .ok (.fell rootJob err) =>
      let effs := match rootJob with
        | some r => [Effect.removeDisks [r.diskID]]
        | none => []
      let err := if results.isEmpty then some (GoErr.msg "empty batch result")
                 else err
      .ok (.error (.msg ("cannot create Linode disk with " ++ image ++ ": " ++
                         optErrText err)),
           effs)

/-! ### Job poller (`waitJob`) -/

/-- Wrapping applied when a poll attempt fails:
`fmt.Errorf("cannot %s %s: %s", verb, server, err)` (`disp` stands for the
server's `String()` rendering, which depends on backend data outside this
file). -/
def wrapVerb (verb disp : String) (e : GoErr) : GoErr :=
  .msg ("cannot " ++ verb ++ " " ++ disp ++ ": " ++ e.text)

/-- The `select` loop of `waitJob`, with the polls that fire before the
1-minute deadline abstracted as the list of their `l.jobInfo` outcomes and
the deadline as exhaustion of that list.  A failing poll stores a wrapped
error in `infoErr` and keeps polling; an unfinished job keeps polling; a
finished job returns immediately with `job.err()` wrapped on failure.  At the
deadline the machine is never shut down: a remembered poll error is surfaced
as is, otherwise the config and both disks are rolled back (rollback errors
ignored) and a timeout error is returned. -/
def waitLoop (verb disp : String) (config root swap : Int) :
    List (Except GoErr linodeJobInfo) → Option GoErr →
    Except GoErr linodeJobInfo × List Effect
  | [], some e => (.error e, [])
  | [], none =>
    (.error (.msg ("timeout waiting for " ++ disp ++ " to " ++ verb)),
     [.removeConfig config, .removeDisks [root, swap]])
  | p :: ps, infoErr =>
    match p with
    | .error e => waitLoop verb disp config root swap ps (some (wrapVerb verb disp e))
    | .ok job =>
      if job.hostFinish ≠ "" then
        match job.err with
        | none => (.ok job, [])
        | some e => (.error (wrapVerb verb disp e), [])
      else waitLoop verb disp config root swap ps infoErr

/-- Models `waitJob` on a server whose provisioned state carries the given
config and disk IDs. -/
def waitJob (verb disp : String) (config root swap : Int)
    (polls : List (Except GoErr linodeJobInfo)) :
    Except GoErr linodeJobInfo × List Effect :=
  waitLoop verb disp config root swap polls none

/-- Spec-side characterization of the `infoErr` variable at the deadline: the
error of the last failing poll attempt, if any poll failed. -/
def lastPollError : List (Except GoErr linodeJobInfo) → Option GoErr
  | [] => none
  | .error e :: ps =>
    match lastPollError ps with
    | some e2 => some e2
    | none => some e
  | .ok _ :: ps => lastPollError ps

/-! ### Provisioning workflow (`setup`, `Allocate`) -/

/-- Oracle for the remote calls `setup` performs, in order: the public-IP
lookup, the batched disk creation (which may succeed with nil `DATA`
pointers), the config creation, the boot call, and the job wait (whose own
internal rollback effects are part of the `waitJob` model, not repeated
here). -/
structure SetupEnv where
  ipRes : Except GoErr linodeIP
  diskRes : Except GoErr (Option linodeDiskJob × Option linodeDiskJob)
  configRes : Except GoErr Int
  bootRes : Except GoErr linodeJob
  waitRes : Except GoErr linodeJobInfo

/-- All oracle errors of a setup environment are plain (non-fatal) errors.
This matches the real callees, whose errors are all `fmt.Errorf` values,
never the `FatalError` wrapper. -/
def SetupEnv.NonFatal (env : SetupEnv) : Prop :=
  (∀ e, env.ipRes = .error e → e.isFatal = false) ∧
  (∀ e, env.diskRes = .error e → e.isFatal = false) ∧
  (∀ e, env.configRes = .error e → e.isFatal = false) ∧
  (∀ e, env.bootRes = .error e → e.isFatal = false) ∧
  (∀ e, env.waitRes = .error e → e.isFatal = false)

/-- Whether an allocation outcome carries the distinguished fatal error. -/
def resultFatal :
    GoOutcome (Except GoErr linodeServer × List Effect) → Bool
  | .ok (.error e, _) => e.isFatal
  | _ => false

/-- The provisioned-state field assignment performed by a successful
`setup`: image identifier, address, disk IDs, and config ID. -/
def provision (s : linodeServer) (image addr : String)
    (root swap config : Int) : linodeServer :=
  { s with
    img := image, addr := addr, root := root, swap := swap, config := config }

/-- Models `setup`: thread the field assignments of the source through the
oracle outcomes, issuing the rollback effects of each failure branch.
Dereferencing a nil disk-job pointer for `DiskID` panics. -/
def setup (server : linodeServer) (image : String) (env : SetupEnv) :
    GoOutcome (Except GoErr linodeServer × List Effect) :=
  let server := { server with img := image }
  match env.ipRes with
  | .error e => .ok (.error e, [])
  | .ok ip =>
    let server := { server with addr := ip.ipAddress }
    match env.diskRes with
    | .error e => .ok (.error e, [])
    | .ok (rootJob, swapJob) =>
      match rootJob, swapJob with
      | some rj, some sj =>
        let server := { server with root := rj.diskID, swap := sj.diskID }
        match env.configRes with
        | .error e =>
          .ok (.error e, [.removeDisks [server.root, server.swap]])
        | .ok configID =>
          let server := { server with config := configID }
          match (match env.bootRes with
                 | .error e => Except.error e
                 | .ok _ => env.waitRes) with
          | .error e =>
            .ok (.error e,
                 [.removeConfig server.config,
                  .removeDisks [server.root, server.swap]])
          | .ok _ => .ok (.ok server, [])
      | _, _ => .panics

/-- The `for _, server := range servers` loop of `Allocate`: skip servers not
powered off; set up the first powered-off one and return its outcome; report
the retriable none-available error when the scan finds none. -/
def allocLoop (image : String) (envFor : linodeServer → SetupEnv) :
    List linodeServer → GoOutcome (Except GoErr linodeServer × List Effect)
  | [] => .ok (.error (.msg "no powered off servers in Linode account"), [])
  | s :: rest =>
    if s.status ≠ linodePoweredOff then allocLoop image envFor rest
    else
      match setup s image (envFor s) with
      | .panics => .panics
      | .ok out => .ok out

/-- Models `Allocate`: on a listing error return it; on an empty account
return the distinguished `FatalError`; otherwise provision the first
powered-off server. -/
def Allocate (listRes : Except GoErr (List linodeServer)) (image : String)
    (envFor : linodeServer → SetupEnv) :
    GoOutcome (Except GoErr linodeServer × List Effect) :=
  match listRes with
  | .error e => .ok (.error e, [])
  | .ok servers =>
    match servers with
    | [] => .ok (.error (.fatal "no servers in Linode account"), [])
    | _ => allocLoop image envFor servers

/-! ### Teardown (`Discard`, `firstErr`) -/

/-- Models the variadic `firstErr`: the first non-nil error, else nil. -/
def firstErr : List (Option GoErr) → Option GoErr
  | [] => none
  | some e :: _ => some e
  | none :: rest => firstErr rest

/-- Oracle for the three teardown calls of `Discard`: the error outcome of
the shutdown, config-removal, and disk-removal calls (the shutdown's job
value is discarded by the source). -/
structure DiscardEnv where
  shutdownRes : Option GoErr
  removeConfigRes : Option GoErr
  removeDisksRes : Option GoErr
deriving DecidableEq

/-- Models `Discard`: unconditionally attempt shutdown, config removal, and
removal of both disks, then return the first error among the three. -/
def Discard (env : DiscardEnv) (s : linodeServer) :
    Option GoErr × List Effect :=
  (firstErr [env.shutdownRes, env.removeConfigRes, env.removeDisksRes],
   [.shutdown s.id, .removeConfig s.config, .removeDisks [s.root, s.swap]])

/-! ### Reuse serialization (`ReuseData`, `Reuse`) -/

/-- The serialized form produced by `yaml.Marshal` on `linodeServer`: one
field per marshalled struct field.  `Status` carries the tag `yaml:"-"` and
is excluded; `Addr` and `Img` serialize under their tag names; the remaining
exported fields serialize under their default names (the `json:"-"` tags do
not affect YAML). -/
structure ReuseDoc where
  id : Int
  label : String
  address : String
  image : String
  config : Int
  root : Int
  swap : Int
deriving DecidableEq

/-- Models `ReuseData`: marshal the server's serializable fields. -/
def ReuseData (s : linodeServer) : ReuseDoc :=
  { id := s.id, label := s.label, address := s.addr, image := s.img,
    config := s.config, root := s.root, swap := s.swap }

/-- Models `Reuse`: unmarshal into a fresh zero-valued `linodeServer`, so
every field absent from the document — in particular the power-state code —
keeps its zero value. -/
def Reuse (d : ReuseDoc) : linodeServer :=
  { id := d.id, label := d.label, status := 0, addr := d.address,
    img := d.image, config := d.config, root := d.root, swap := d.swap }

/-! ## Theorems -/

/-- C10: the provider-error normalization `linodeResult.err` is total only
for non-empty messages: a decoded envelope with a non-empty error list yields
an error built from the first record's message with its first letter
lower-cased, while a first record with an empty message panics (out-of-range
`Message[0]`); the job-message path `linodeJobInfo.err` guards the empty
message and returns the generic failed-silently error instead. -/
theorem result_err_panic_spec :
    (∀ (e : linodeError) (rest : List linodeError), e.message ≠ "" →
      linodeResult.err ⟨e :: rest⟩ = .ok (some (.msg (goLowerFirst e.message)))) ∧
    (∀ (e : linodeError) (rest : List linodeError), e.message = "" →
      linodeResult.err ⟨e :: rest⟩ = .panics) ∧
    (∀ job : linodeJobInfo, job.hostFinish ≠ "" → job.hostSuccess ≠ 1 →
      job.hostMessage = "" →
      job.err = some (.msg ("job " ++ toString job.jobID ++ " failed silently"))) := by
  refine ⟨?_, ?_, ?_⟩
  · intro e rest h
    simp [linodeResult.err, h]
  · intro e rest h
    simp [linodeResult.err, h]
  · intro job hf hs hm
    simp [linodeJobInfo.err, hf, hs, hm]

/-- Witness for `result_err_panic_spec` at concrete envelopes and a concrete
silently-failing job. -/
theorem result_err_panic_spec_witness :
    linodeResult.err ⟨[⟨4, "Boom"⟩]⟩ = .ok (some (.msg "boom")) ∧
    linodeResult.err ⟨[⟨4, ""⟩]⟩ = .panics ∧
    linodeJobInfo.err ⟨7, 1, "boot", "l", "s", "f", 0, ""⟩ =
      some (.msg "job 7 failed silently") := by
  refine ⟨?_, ?_, ?_⟩
  · exact (result_err_panic_spec.1 ⟨4, "Boom"⟩ [] (by decide)).trans (by decide)
  · exact result_err_panic_spec.2.1 ⟨4, ""⟩ [] (by decide)
  · exact (result_err_panic_spec.2.2 ⟨7, 1, "boot", "l", "s", "f", 0, ""⟩
      (by decide) (by decide) (by decide)).trans (by decide)

/-- C7: canonical name derivation is deterministic: the label is lower-cased
and split on whitespace; with more than two words and second word "linux" the
name joins words one and three, otherwise words one and two; in particular
"Ubuntu 16.04 LTS" maps to "ubuntu-16.04" and "Arch Linux 2016.01" to
"arch-2016.01". -/
theorem distroName_spec :
    (∀ (label w0 w1 w2 : String) (rest : List String),
      goFields (goToLower label) = w0 :: w1 :: w2 :: rest → w1 = "linux" →
      distroName label = some (w0 ++ "-" ++ w2)) ∧
    (∀ (label w0 w1 w2 : String) (rest : List String),
      goFields (goToLower label) = w0 :: w1 :: w2 :: rest → w1 ≠ "linux" →
      distroName label = some (w0 ++ "-" ++ w1)) ∧
    (∀ (label w0 w1 : String),
      goFields (goToLower label) = [w0, w1] →
      distroName label = some (w0 ++ "-" ++ w1)) ∧
    distroName "Ubuntu 16.04 LTS" = some "ubuntu-16.04" ∧
    distroName "Arch Linux 2016.01" = some "arch-2016.01" := by
  refine ⟨?_, ?_, ?_, by decide, by decide⟩
  · intro label w0 w1 w2 rest h hlinux
    simp [distroName, h, hlinux]
  · intro label w0 w1 w2 rest h hlinux
    simp [distroName, h, hlinux]
  · intro label w0 w1 h
    simp [distroName, h]

/-- Witness for `distroName_spec` at a concrete two-word label. -/
theorem distroName_spec_witness :
    distroName "Gentoo 2023" = some "gentoo-2023" :=
  distroName_spec.2.2.1 "Gentoo 2023" "gentoo" "2023" (by decide)

/-- C8: serializing with `ReuseData` and reconstructing with `Reuse` yields a
machine with identical address, image identifier, root/swap disk IDs, and
config ID; the power-state code is never written to the serialized form and
the reconstructed machine's power-state is always the zero value. -/
theorem reuse_roundtrip_spec :
    ∀ (s : linodeServer) (d : ReuseDoc) (n : Int),
      (Reuse (ReuseData s)).addr = s.addr ∧
      (Reuse (ReuseData s)).img = s.img ∧
      (Reuse (ReuseData s)).root = s.root ∧
      (Reuse (ReuseData s)).swap = s.swap ∧
      (Reuse (ReuseData s)).config = s.config ∧
      ReuseData { s with status := n } = ReuseData s ∧
      (Reuse d).status = 0 := by
  intro s d n
  refine ⟨rfl, rfl, rfl, rfl, rfl, rfl, rfl⟩

/-- C9: `Discard` always issues all three teardown calls — shutdown, config
removal, removal of both disks — in that order, regardless of failures, and
returns the first non-nil error among the three (nil when all succeed). -/
theorem Discard_spec :
    ∀ (env : DiscardEnv) (s : linodeServer),
      (Discard env s).2 =
        [.shutdown s.id, .removeConfig s.config,
         .removeDisks [s.root, s.swap]] ∧
      (∀ e, env.shutdownRes = some e → (Discard env s).1 = some e) ∧
      (env.shutdownRes = none → ∀ e, env.removeConfigRes = some e →
        (Discard env s).1 = some e) ∧
      (env.shutdownRes = none → env.removeConfigRes = none →
        (Discard env s).1 = env.removeDisksRes) ∧
      ((Discard env s).1 = none ↔
        env.shutdownRes = none ∧ env.removeConfigRes = none ∧
        env.removeDisksRes = none) := by
  intro env s
  obtain ⟨e1, e2, e3⟩ := env
  refine ⟨rfl, ?_, ?_, ?_, ?_⟩
  · intro e h
    simp only at h
    simp [Discard, firstErr, h]
  · intro h1 e h2
    simp only at h1 h2
    simp [Discard, firstErr, h1, h2]
  · intro h1 h2
    simp only at h1 h2
    cases e3 <;> simp [Discard, firstErr, h1, h2]
  · cases e1 <;> cases e2 <;> cases e3 <;> simp [Discard, firstErr]

/-- Witness for `Discard_spec`: a failing config removal after a successful
shutdown is surfaced while all three effects are still issued. -/
theorem Discard_spec_witness :
    (Discard ⟨none, some (.msg "x"), none⟩ ⟨1, "a", 2, "ip", "img", 5, 6, 7⟩).1 =
      some (.msg "x") ∧
    (Discard ⟨none, some (.msg "x"), none⟩ ⟨1, "a", 2, "ip", "img", 5, 6, 7⟩).2 =
      [.shutdown 1, .removeConfig 5, .removeDisks [6, 7]] :=
  ⟨(Discard_spec ⟨none, some (.msg "x"), none⟩ ⟨1, "a", 2, "ip", "img", 5, 6, 7⟩).2.2.1
      rfl (.msg "x") rfl,
   (Discard_spec ⟨none, some (.msg "x"), none⟩ ⟨1, "a", 2, "ip", "img", 5, 6, 7⟩).1⟩

/-- C1: in a batched disk creation whose root sub-result decodes without a
provider error but whose swap sub-result carries a provider error, the
already-created root disk is removed and the returned error is built from the
swap sub-result's error; a batch with zero sub-results yields the
empty-batch-result error; in both cases the call returns an error and hands
no disk jobs to the caller. -/
theorem createDisk_spec :
    (∀ (image : String) (d : linodeDistro) (doErr : Option GoErr)
      (r0 r1 : linodeDiskJobResult) (rest : List linodeDiskJobResult)
      (rj : linodeDiskJob) (e : linodeError) (es : List linodeError),
      r0.result.errors = [] → r0.data = some rj →
      r1.result.errors = e :: es → e.message ≠ "" →
      createDisk image (.ok d) doErr (r0 :: r1 :: rest) =
        .ok (.error (.msg ("cannot create Linode disk with " ++ image ++
                           ": " ++ goLowerFirst e.message)),
             [.removeDisks [rj.diskID]])) ∧
    (∀ (image : String) (d : linodeDistro) (doErr : Option GoErr),
      createDisk image (.ok d) doErr [] =
        .ok (.error (.msg ("cannot create Linode disk with " ++ image ++
                           ": empty batch result")), [])) := by
  constructor
  · intro image d doErr r0 r1 rest rj e es h0 hdata h1 hmsg
    simp [createDisk, diskLoop, linodeResult.err, h0, hdata, h1, hmsg,
      optErrText, GoErr.text]
  · intro image d doErr
    simp [createDisk, diskLoop, optErrText, GoErr.text, String.append_assoc]

/-- Witness for `createDisk_spec`: a concrete batch whose swap sub-result
reports "No space", and a concrete empty batch. -/
theorem createDisk_spec_witness :
    createDisk "ubuntu-16.04" (.ok ⟨"ubuntu-16.04", 7, 130, "Ubuntu 16.04 LTS", 900, 0, 1, "d"⟩)
      none
      [⟨⟨[]⟩, some ⟨11, 21⟩⟩, ⟨⟨[⟨8, "No space"⟩]⟩, none⟩] =
      .ok (.error (.msg "cannot create Linode disk with ubuntu-16.04: no space"),
           [.removeDisks [11]]) ∧
    createDisk "ubuntu-16.04" (.ok ⟨"ubuntu-16.04", 7, 130, "Ubuntu 16.04 LTS", 900, 0, 1, "d"⟩)
      none [] =
      .ok (.error (.msg "cannot create Linode disk with ubuntu-16.04: empty batch result"),
           []) := by
  constructor
  · exact (createDisk_spec.1 "ubuntu-16.04" ⟨"ubuntu-16.04", 7, 130, "Ubuntu 16.04 LTS", 900, 0, 1, "d"⟩
      none ⟨⟨[]⟩, some ⟨11, 21⟩⟩ ⟨⟨[⟨8, "No space"⟩]⟩, none⟩ [] ⟨11, 21⟩ ⟨8, "No space"⟩ []
      rfl rfl rfl (by decide)).trans (by rfl)
  · exact createDisk_spec.2 "ubuntu-16.04" ⟨"ubuntu-16.04", 7, 130, "Ubuntu 16.04 LTS", 900, 0, 1, "d"⟩ none

/-! ### Helper lemmas for the catalog cache -/

/-- The optional last element of a cons cell is the last element of the tail,
defaulting to the head. -/
theorem getLast?_cons_getD {α : Type} (a : α) (l : List α) :
    (a :: l).getLast? = some (l.getLast?.getD a) := by
  induction l generalizing a with
  | nil => rfl
  | cons b l ih =>
    rw [List.getLast?_cons_cons, ih b]
    rfl

/-- The resolution scan returns the first 64-bit entry matching the requested
system, regardless of earlier non-64-bit matches and of the accumulator. -/
theorem scanDistros_first64 (sys : String) :
    ∀ (pre : List linodeDistro) (d : linodeDistro) (post : List linodeDistro)
      (best : Option linodeDistro),
      d.name = sys → d.is64Bit = 1 →
      (∀ p ∈ pre, ¬(p.name = sys ∧ p.is64Bit = 1)) →
      scanDistros sys (pre ++ d :: post) best = some d := by
  intro pre
  induction pre with
  | nil =>
    intro d post best hname h64 _
    simp [scanDistros, hname, h64]
  | cons p pre ih =>
    intro d post best hname h64 hpre
    by_cases hp : p.name = sys
    · have h1 : p.is64Bit ≠ 1 := fun h => hpre p (List.mem_cons_self _ _) ⟨hp, h⟩
      simp only [List.cons_append, scanDistros, hp]
      simp only [ne_eq, not_true_eq_false, if_false, h1, if_neg]
      exact ih d post (some p) hname h64
        (fun q hq => hpre q (List.mem_cons_of_mem _ hq))
    · simp only [List.cons_append, scanDistros, if_pos (by simpa using hp)]
      exact ih d post best hname h64
        (fun q hq => hpre q (List.mem_cons_of_mem _ hq))

/-- When no matching entry is 64-bit, the resolution scan returns the last
matching entry, falling back to the accumulator. -/
theorem scanDistros_no64 (sys : String) :
    ∀ (cache : List linodeDistro) (best : Option linodeDistro),
      (∀ p ∈ cache, p.name = sys → p.is64Bit ≠ 1) →
      scanDistros sys cache best =
        ((cache.filter (fun p => p.name = sys)).getLast?).or best := by
  intro cache
  induction cache with
  | nil => intro best _; rfl
  | cons p cache ih =>
    intro best hp
    by_cases hname : p.name = sys
    · have h64 := hp p (List.mem_cons_self _ _) hname
      simp only [scanDistros, hname]
      simp only [ne_eq, not_true_eq_false, if_false, h64, if_neg]
      rw [ih (some p) (fun q hq h => hp q (List.mem_cons_of_mem _ hq) h)]
      rw [List.filter_cons_of_pos (by simpa using hname), getLast?_cons_getD]
      cases (cache.filter (fun q => q.name = sys)).getLast? <;> rfl
    · simp only [scanDistros, if_pos (by simpa using hname)]
      rw [ih best (fun q hq h => hp q (List.mem_cons_of_mem _ hq) h)]
      rw [List.filter_cons_of_neg (by simpa using hname)]

/-- Replacing the done flag by `true` on a state whose flag is already set is
the identity. -/
theorem state_eta_done {st : LinodeState} (h : st.distrosDone = true) :
    { st with distrosDone := true } = st := by
  cases st
  simp only at h
  rw [h]

/-- C5: over a populated catalog, resolution restricted to distributions
whose canonical name equals the requested system returns the first 64-bit
match when one exists, otherwise the last matching entry seen; when nothing
matches it fails with the system-not-found error. -/
theorem distro_resolution_spec :
    (∀ (env : CacheEnv) (st : LinodeState) (sys : String)
      (pre post : List linodeDistro) (d : linodeDistro),
      st.distrosDone = true → st.distrosCache = pre ++ d :: post →
      d.name = sys → d.is64Bit = 1 →
      (∀ p ∈ pre, ¬(p.name = sys ∧ p.is64Bit = 1)) →
      distro env st sys = .ok (st, .ok d)) ∧
    (∀ (env : CacheEnv) (st : LinodeState) (sys : String) (d : linodeDistro),
      st.distrosDone = true →
      (∀ p ∈ st.distrosCache, p.name = sys → p.is64Bit ≠ 1) →
      (st.distrosCache.filter (fun p => p.name = sys)).getLast? = some d →
      distro env st sys = .ok (st, .ok d)) ∧
    (∀ (env : CacheEnv) (st : LinodeState) (sys : String),
      st.distrosDone = true →
      (∀ p ∈ st.distrosCache, p.name ≠ sys) →
      distro env st sys = .ok (st, .error (.msg noSystemMsg))) := by
  refine ⟨?_, ?_, ?_⟩
  · intro env st sys pre post d hdone hcache hname h64 hpre
    have hscan := scanDistros_first64 sys pre d post none hname h64 hpre
    have hlook : lookupDistro st.distrosCache sys = .ok d := by
      rw [lookupDistro, hcache, hscan]
    simp [distro, hdone, state_eta_done hdone, hlook]
  · intro env st sys d hdone hno hlast
    have hscan : scanDistros sys st.distrosCache none = some d := by
      rw [scanDistros_no64 sys st.distrosCache none hno, hlast]
      rfl
    have hlook : lookupDistro st.distrosCache sys = .ok d := by
      rw [lookupDistro, hscan]
    simp [distro, hdone, state_eta_done hdone, hlook]
  · intro env st sys hdone hno
    have hfil : st.distrosCache.filter (fun p => p.name = sys) = [] := by
      rw [List.filter_eq_nil_iff]
      intro p hp
      simpa using hno p hp
    have hscan : scanDistros sys st.distrosCache none = none := by
      rw [scanDistros_no64 sys st.distrosCache none
        (fun p hp h => absurd h (hno p hp)), hfil]
      rfl
    have hlook : lookupDistro st.distrosCache sys = .error (.msg noSystemMsg) := by
      rw [lookupDistro, hscan]
    simp [distro, hdone, state_eta_done hdone, hlook]

/-- Witness for `distro_resolution_spec`: a 64-bit Ubuntu entry following a
32-bit one with the same canonical name is the one resolved. -/
theorem distro_resolution_spec_witness :
    distro ⟨fun _ => .ok [], fun _ => .ok []⟩
      ⟨true,
       [⟨"ubuntu-16.04", 3, 129, "Ubuntu 16.04 LTS 32", 900, 0, 0, "c"⟩,
        ⟨"ubuntu-16.04", 7, 130, "Ubuntu 16.04 LTS", 900, 0, 1, "c"⟩],
       []⟩ "ubuntu-16.04" =
      .ok (⟨true,
            [⟨"ubuntu-16.04", 3, 129, "Ubuntu 16.04 LTS 32", 900, 0, 0, "c"⟩,
             ⟨"ubuntu-16.04", 7, 130, "Ubuntu 16.04 LTS", 900, 0, 1, "c"⟩],
            []⟩,
           .ok ⟨"ubuntu-16.04", 7, 130, "Ubuntu 16.04 LTS", 900, 0, 1, "c"⟩) :=
  distro_resolution_spec.1 ⟨fun _ => .ok [], fun _ => .ok []⟩ _ "ubuntu-16.04"
    [⟨"ubuntu-16.04", 3, 129, "Ubuntu 16.04 LTS 32", 900, 0, 0, "c"⟩] []
    ⟨"ubuntu-16.04", 7, 130, "Ubuntu 16.04 LTS", 900, 0, 1, "c"⟩
    rfl rfl rfl rfl (by decide)

/-- Population never touches the done flag: that flag is set only by a
successful `distro` call. -/
theorem cacheDistros_preserves_done (env : CacheEnv) (st st1 : LinodeState)
    (r : Option GoErr) (h : cacheDistros env st = .ok (st1, r)) :
    st1.distrosDone = st.distrosDone := by
  rw [cacheDistros] at h
  split at h
  · simp at h
    rw [← h.1]
  · split at h
    · simp at h
      rw [← h.1]
    · split at h
      · simp at h
        rw [← h.1]
      · split at h
        · simp at h
        · simp at h
          rw [← h.1]

/-- C4: catalog population happens at most once, guarded by the done flag:
with the flag set, resolution ignores the fetch environment and leaves the
state unchanged; any successful resolution leaves the flag set; during one
population attempt each list fetch is tried up to three times, stopping at
the first success and surfacing the last error when all three fail; and a
failed population leaves the flag clear, so a later call re-runs population
(succeeding when its fetches succeed). -/
theorem catalog_cache_spec :
    (∀ (env env2 : CacheEnv) (st : LinodeState) (sys : String),
      st.distrosDone = true →
      distro env st sys = .ok (st, lookupDistro st.distrosCache sys) ∧
      distro env st sys = distro env2 st sys) ∧
    (∀ (env : CacheEnv) (st st2 : LinodeState) (sys : String)
      (d : linodeDistro),
      distro env st sys = .ok (st2, .ok d) → st2.distrosDone = true) ∧
    (∀ (f : Nat → Except GoErr (List linodeDistro)),
      (∀ ds, f 0 = .ok ds → retry3 f = .ok ds) ∧
      (∀ e ds, f 0 = .error e → f 1 = .ok ds → retry3 f = .ok ds) ∧
      (∀ e0 e1, f 0 = .error e0 → f 1 = .error e1 → retry3 f = f 2)) ∧
    (∀ (env : CacheEnv) (st : LinodeState) (e0 e1 e2 : GoErr),
      env.distroAttempt 0 = .error e0 → env.distroAttempt 1 = .error e1 →
      env.distroAttempt 2 = .error e2 →
      cacheDistros env st =
        .ok (st, some (.msg ("cannot list Linode distributions: " ++ e2.text)))) ∧
    (∀ (env : CacheEnv) (st st1 : LinodeState) (sys : String) (e : GoErr),
      st.distrosDone = false →
      cacheDistros env st = .ok (st1, some e) →
      distro env st sys = .ok (st1, .error e) ∧ st1.distrosDone = false) ∧
    (∀ (env2 : CacheEnv) (st st1 : LinodeState) (sys : String),
      st.distrosDone = false →
      cacheDistros env2 st = .ok (st1, none) →
      distro env2 st sys =
        .ok ({ st1 with distrosDone := true },
             lookupDistro st1.distrosCache sys)) := by
  refine ⟨?_, ?_, ?_, ?_, ?_, ?_⟩
  · intro env env2 st sys hdone
    constructor
    · simp [distro, hdone, state_eta_done hdone]
    · simp [distro, hdone]
  · intro env st st2 sys d h
    by_cases hdone : st.distrosDone
    · rw [distro, if_pos hdone] at h
      simp at h
      rw [← h.1]
    · rw [distro, if_neg hdone] at h
      cases hc : cacheDistros env st with
      | panics => rw [hc] at h; exact absurd h (by simp)
      | ok p =>
        obtain ⟨st1, r⟩ := p
        cases r with
        | some e => rw [hc] at h; simp at h
        | none =>
          rw [hc] at h
          simp at h
          rw [← h.1]
  · intro f
    refine ⟨?_, ?_, ?_⟩
    · intro ds h
      rw [retry3, h]
    · intro e ds h0 h1
      rw [retry3, h0, h1]
    · intro e0 e1 h0 h1
      rw [retry3, h0, h1]
  · intro env st e0 e1 e2 h0 h1 h2
    have hr : retry3 env.distroAttempt = .error e2 := by
      rw [retry3, h0, h1, h2]
    rw [cacheDistros, hr]
  · intro env st st1 sys e hdone hc
    refine ⟨?_, ?_⟩
    · rw [distro, if_neg (by simp [hdone]), hc]
    · rw [cacheDistros_preserves_done env st st1 (some e) hc, hdone]
  · intro env2 st st1 sys hdone hc
    rw [distro, if_neg (by simp [hdone]), hc]

/-- Witness for `catalog_cache_spec`: a populated state resolves with the
cache untouched; three failed fetch attempts surface the last error. -/
theorem catalog_cache_spec_witness :
    distro ⟨fun _ => .ok [], fun _ => .ok []⟩ ⟨true, [], []⟩ "u" =
      .ok (⟨true, [], []⟩, lookupDistro [] "u") ∧
    cacheDistros
      ⟨fun n => .error (.msg (toString n)), fun _ => .ok []⟩ ⟨false, [], []⟩ =
      .ok (⟨false, [], []⟩,
           some (.msg ("cannot list Linode distributions: " ++
                       (GoErr.msg "2").text))) :=
  ⟨(catalog_cache_spec.1 ⟨fun _ => .ok [], fun _ => .ok []⟩
      ⟨fun _ => .ok [], fun _ => .ok []⟩ ⟨true, [], []⟩ "u" rfl).1,
   catalog_cache_spec.2.2.2.1
     ⟨fun n => .error (.msg (toString n)), fun _ => .ok []⟩ ⟨false, [], []⟩
     (.msg "0") (.msg "1") (.msg "2") rfl rfl rfl⟩

/-- The fold of `scanLatest` computes, in each component, the last matching
kernel ID with the accumulator as fallback. -/
theorem scanLatest_foldl (ks : List linodeKernel) :
    ∀ p : Int × Int,
      ks.foldl
        (fun p k =>
          let p := if strStartsWith k.label "Latest 64 bit" then (p.1, k.id)
                   else p
          if strStartsWith k.label "Latest 32 bit" then (k.id, p.2) else p) p =
      ((lastLabeled "Latest 32 bit" ks).getD p.1,
       (lastLabeled "Latest 64 bit" ks).getD p.2) := by
  induction ks with
  | nil => intro p; rfl
  | cons k ks ih =>
    intro p
    rw [List.foldl_cons, ih]
    rw [lastLabeled, lastLabeled]
    by_cases h64 : strStartsWith k.label "Latest 64 bit" <;>
      by_cases h32 : strStartsWith k.label "Latest 32 bit" <;>
      cases hl32 : lastLabeled "Latest 32 bit" ks <;>
      cases hl64 : lastLabeled "Latest 64 bit" ks <;>
      simp [h64, h32, hl32, hl64]

/-- `scanLatest` returns exactly the last "Latest 32 bit" and "Latest 64 bit"
kernel IDs, each defaulting to -1 when the prefix never occurs. -/
theorem scanLatest_eq (ks : List linodeKernel) :
    scanLatest ks =
      ((lastLabeled "Latest 32 bit" ks).getD (-1),
       (lastLabeled "Latest 64 bit" ks).getD (-1)) :=
  scanLatest_foldl ks (-1, -1)

/-- A back-filled distribution carries the 64-bit kernel ID when 64-bit and
the 32-bit kernel ID otherwise. -/
theorem backfillDistro_props (l32 l64 : Int) (d d2 : linodeDistro)
    (h : backfillDistro l32 l64 d = some d2) :
    (d2.is64Bit = 1 → d2.kernelID = l64) ∧
    (d2.is64Bit ≠ 1 → d2.kernelID = l32) := by
  rw [backfillDistro] at h
  cases hn : distroName d.label with
  | none => rw [hn] at h; exact absurd h (by simp)
  | some n =>
    simp only [hn] at h
    by_cases h1 : d.is64Bit = 1
    · rw [if_pos h1] at h
      simp at h
      rw [← h]
      exact ⟨fun _ => rfl, fun hne => absurd h1 hne⟩
    · rw [if_neg h1] at h
      simp at h
      rw [← h]
      exact ⟨fun he => absurd he h1, fun _ => rfl⟩

/-- Every distribution in a successfully back-filled list carries the kernel
ID selected by its bitness. -/
theorem backfillAll_mem (l32 l64 : Int) :
    ∀ (ds ds2 : List linodeDistro), backfillAll l32 l64 ds = some ds2 →
      ∀ d2 ∈ ds2, (d2.is64Bit = 1 → d2.kernelID = l64) ∧
                  (d2.is64Bit ≠ 1 → d2.kernelID = l32) := by
  intro ds
  induction ds with
  | nil =>
    intro ds2 h d2 hd2
    rw [backfillAll] at h
    simp at h
    rw [h] at hd2
    simp at hd2
  | cons d ds ih =>
    intro ds2 h d2 hd2
    rw [backfillAll] at h
    cases hb : backfillDistro l32 l64 d with
    | none => rw [hb] at h; exact absurd h (by simp)
    | some d1 =>
      rw [hb] at h
      cases hrest : backfillAll l32 l64 ds with
      | none => rw [hrest] at h; exact absurd h (by simp)
      | some ds1 =>
        rw [hrest] at h
        simp at h
        rw [← h] at hd2
        rcases List.mem_cons.mp hd2 with h2 | h2
        · rw [h2]
          exact backfillDistro_props l32 l64 d d1 hb
        · exact ih ds1 hrest d2 h2

/-- C6: after a successful catalog population, every 64-bit distribution's
resolved kernel ID is the ID of the last kernel labelled "Latest 64 bit" and
every other distribution's is the ID of the last kernel labelled
"Latest 32 bit"; when either prefix occurs in no kernel label, population
fails with the no-such-kernel error. -/
theorem kernel_backfill_spec :
    (∀ (env : CacheEnv) (st st1 : LinodeState) (ks : List linodeKernel)
      (i32 i64 : Int),
      env.kernelAttempt 0 = .ok ks →
      lastLabeled "Latest 32 bit" ks = some i32 →
      lastLabeled "Latest 64 bit" ks = some i64 →
      cacheDistros env st = .ok (st1, none) →
      ∀ d ∈ st1.distrosCache,
        (d.is64Bit = 1 → d.kernelID = i64) ∧
        (d.is64Bit ≠ 1 → d.kernelID = i32)) ∧
    (∀ (env : CacheEnv) (st : LinodeState) (ds : List linodeDistro)
      (ks : List linodeKernel),
      env.distroAttempt 0 = .ok ds → env.kernelAttempt 0 = .ok ks →
      (lastLabeled "Latest 32 bit" ks = none ∨
       lastLabeled "Latest 64 bit" ks = none) →
      cacheDistros env st =
        .ok ({ st with distrosCache := ds, kernelsCache := ks },
             some (.msg "cannot find latest Linode kernel"))) := by
  constructor
  · intro env st st1 ks i32 i64 hk0 h32 h64 hc
    have hrk : retry3 env.kernelAttempt = .ok ks := by rw [retry3, hk0]
    have hscan : scanLatest ks = (i32, i64) := by
      rw [scanLatest_eq, h32, h64]
      rfl
    cases hd : retry3 env.distroAttempt with
    | error e =>
      rw [cacheDistros, hd] at hc
      simp at hc
    | ok ds =>
      rw [cacheDistros, hd, hrk] at hc
      simp only [hscan] at hc
      by_cases hneg : i32 = -1 ∨ i64 = -1
      · simp [hneg] at hc
      · simp only [hneg, if_false] at hc
        cases hb : backfillAll i32 i64 ds with
        | none => rw [hb] at hc; exact absurd hc (by simp)
        | some ds2 =>
          rw [hb] at hc
          simp at hc
          intro d hd2
          rw [← hc] at hd2
          exact backfillAll_mem i32 i64 ds ds2 hb d (by simpa using hd2)
  · intro env st ds ks hd0 hk0 hnone
    have hrd : retry3 env.distroAttempt = .ok ds := by rw [retry3, hd0]
    have hrk : retry3 env.kernelAttempt = .ok ks := by rw [retry3, hk0]
    have hcond : (scanLatest ks).1 = -1 ∨ (scanLatest ks).2 = -1 := by
      rw [scanLatest_eq]
      rcases hnone with h | h
      · left; rw [h]; rfl
      · right; rw [h]; rfl
    simp only [cacheDistros, hrd, hrk]
    rw [if_pos hcond]

/-- Witness for `kernel_backfill_spec`: with kernels labelled
"Latest 32 bit (4.1)" (ID 3) and "Latest 64 bit (4.1)" (ID 7), a 64-bit
Ubuntu distribution resolves to kernel 7. -/
theorem kernel_backfill_spec_witness :
    ((⟨"ubuntu-16.04", 7, 130, "Ubuntu 16.04 LTS", 900, 0, 1, "c"⟩ :
        linodeDistro).is64Bit = 1 →
      (⟨"ubuntu-16.04", 7, 130, "Ubuntu 16.04 LTS", 900, 0, 1, "c"⟩ :
        linodeDistro).kernelID = 7) ∧
    ((⟨"ubuntu-16.04", 7, 130, "Ubuntu 16.04 LTS", 900, 0, 1, "c"⟩ :
        linodeDistro).is64Bit ≠ 1 →
      (⟨"ubuntu-16.04", 7, 130, "Ubuntu 16.04 LTS", 900, 0, 1, "c"⟩ :
        linodeDistro).kernelID = 3) :=
  kernel_backfill_spec.1
    ⟨fun _ => .ok [⟨"", 0, 130, "Ubuntu 16.04 LTS", 900, 0, 1, "c"⟩],
     fun _ => .ok [⟨3, 0, 0, 0, "Latest 32 bit (4.1)"⟩,
                   ⟨7, 0, 0, 0, "Latest 64 bit (4.1)"⟩]⟩
    ⟨false, [], []⟩
    ⟨false, [⟨"ubuntu-16.04", 7, 130, "Ubuntu 16.04 LTS", 900, 0, 1, "c"⟩],
     [⟨3, 0, 0, 0, "Latest 32 bit (4.1)"⟩, ⟨7, 0, 0, 0, "Latest 64 bit (4.1)"⟩]⟩
    [⟨3, 0, 0, 0, "Latest 32 bit (4.1)"⟩, ⟨7, 0, 0, 0, "Latest 64 bit (4.1)"⟩]
    3 7 rfl (by decide) (by decide) (by decide)
    ⟨"ubuntu-16.04", 7, 130, "Ubuntu 16.04 LTS", 900, 0, 1, "c"⟩
    (by simp)

/-! ### Helper lemmas for the job poller -/

/-- On a run of polls none of which observes a finish timestamp, the loop
reaches the deadline holding the wrapped last poll error, falling back to the
incoming accumulator. -/
theorem waitLoop_deadline (verb disp : String) (config root swap : Int) :
    ∀ (polls : List (Except GoErr linodeJobInfo)) (acc : Option GoErr),
      (∀ p ∈ polls, ∀ j, p = .ok j → j.hostFinish = "") →
      waitLoop verb disp config root swap polls acc =
        match (lastPollError polls).map (wrapVerb verb disp) with
        | some e => (.error e, [])
        | none =>
          match acc with
          | some e => (.error e, [])
          | none =>
            (.error (.msg ("timeout waiting for " ++ disp ++ " to " ++ verb)),
             [.removeConfig config, .removeDisks [root, swap]]) := by
  intro polls
  induction polls with
  | nil =>
    intro acc _
    cases acc <;> rfl
  | cons p ps ih =>
    intro acc hp
    cases p with
    | error e =>
      rw [waitLoop, ih (some (wrapVerb verb disp e))
        (fun q hq => hp q (List.mem_cons_of_mem _ hq))]
      rw [lastPollError]
      cases lastPollError ps <;> rfl
    | ok j =>
      have hf : j.hostFinish = "" := hp (.ok j) (List.mem_cons_self _ _) j rfl
      rw [waitLoop, if_neg (by simp [hf])]
      rw [ih acc (fun q hq => hp q (List.mem_cons_of_mem _ hq))]
      rw [lastPollError]

/-- A run of polls that all return unfinished jobs leaves no remembered poll
error. -/
theorem lastPollError_none :
    ∀ polls : List (Except GoErr linodeJobInfo),
      (∀ p ∈ polls, ∃ j, p = .ok j) → lastPollError polls = none := by
  intro polls
  induction polls with
  | nil => intro _; rfl
  | cons p ps ih =>
    intro hp
    obtain ⟨j, hj⟩ := hp p (List.mem_cons_self _ _)
    rw [hj, lastPollError]
    exact ih (fun q hq => hp q (List.mem_cons_of_mem _ hq))

/-- No branch of the poll loop ever issues a shutdown effect. -/
theorem waitLoop_no_shutdown (verb disp : String) (config root swap : Int) :
    ∀ (polls : List (Except GoErr linodeJobInfo)) (acc : Option GoErr)
      (i : Int),
      Effect.shutdown i ∉ (waitLoop verb disp config root swap polls acc).2 := by
  intro polls
  induction polls with
  | nil =>
    intro acc i
    cases acc <;> simp [waitLoop]
  | cons p ps ih =>
    intro acc i
    cases p with
    | error e =>
      rw [waitLoop]
      exact ih _ i
    | ok j =>
      by_cases hf : j.hostFinish = ""
      · rw [waitLoop, if_neg (by simp [hf])]
        exact ih acc i
      · rw [waitLoop, if_pos (by simpa using hf)]
        cases j.err <;> simp

/-- A poll that observes a finish timestamp terminates the loop at once with
the job's own verdict, independently of earlier non-finishing polls, of later
scheduled polls, and of any remembered poll error. -/
theorem waitLoop_finish (verb disp : String) (config root swap : Int)
    (j : linodeJobInfo) (rest : List (Except GoErr linodeJobInfo))
    (hf : j.hostFinish ≠ "") :
    ∀ (qs : List (Except GoErr linodeJobInfo)) (acc : Option GoErr),
      (∀ p ∈ qs, ∀ j2, p = .ok j2 → j2.hostFinish = "") →
      waitLoop verb disp config root swap (qs ++ .ok j :: rest) acc =
        match j.err with
        | none => (.ok j, [])
        | some e => (.error (wrapVerb verb disp e), []) := by
  intro qs
  induction qs with
  | nil =>
    intro acc _
    rw [List.nil_append, waitLoop, if_pos (by simpa using hf)]
  | cons q qs ih =>
    intro acc hq
    cases q with
    | error e =>
      rw [List.cons_append, waitLoop]
      exact ih _ (fun p hp => hq p (List.mem_cons_of_mem _ hp))
    | ok j2 =>
      have h2 : j2.hostFinish = "" := hq (.ok j2) (List.mem_cons_self _ _) j2 rfl
      rw [List.cons_append, waitLoop, if_neg (by simp [h2])]
      exact ih acc (fun p hp => hq p (List.mem_cons_of_mem _ hp))

/-- C3: when the deadline elapses after a poll attempt errored, the last poll
error is returned and no rollback happens; when it elapses with every poll
returning an unfinished job, the boot configuration and both disks are
removed and a timeout error is returned; the machine is never shut down by
the poller; and a poll observing a finish timestamp returns immediately —
with success when the job succeeded, with an error built from the job's
message (first letter lower-cased), or with the generic failed-silently
message when the job's message is empty. -/
theorem waitJob_spec :
    (∀ (verb disp : String) (config root swap : Int)
      (polls : List (Except GoErr linodeJobInfo)) (e : GoErr),
      (∀ p ∈ polls, ∀ j, p = .ok j → j.hostFinish = "") →
      lastPollError polls = some e →
      waitJob verb disp config root swap polls =
        (.error (wrapVerb verb disp e), [])) ∧
    (∀ (verb disp : String) (config root swap : Int)
      (polls : List (Except GoErr linodeJobInfo)),
      (∀ p ∈ polls, ∃ j, p = .ok j ∧ j.hostFinish = "") →
      waitJob verb disp config root swap polls =
        (.error (.msg ("timeout waiting for " ++ disp ++ " to " ++ verb)),
         [.removeConfig config, .removeDisks [root, swap]])) ∧
    (∀ (verb disp : String) (config root swap : Int)
      (polls : List (Except GoErr linodeJobInfo)) (i : Int),
      Effect.shutdown i ∉ (waitJob verb disp config root swap polls).2) ∧
    (∀ (verb disp : String) (config root swap : Int)
      (qs rest : List (Except GoErr linodeJobInfo)) (j : linodeJobInfo),
      (∀ p ∈ qs, ∀ j2, p = .ok j2 → j2.hostFinish = "") →
      j.hostFinish ≠ "" →
      (j.hostSuccess = 1 →
        waitJob verb disp config root swap (qs ++ .ok j :: rest) =
          (.ok j, [])) ∧
      (j.hostSuccess ≠ 1 → j.hostMessage ≠ "" →
        waitJob verb disp config root swap (qs ++ .ok j :: rest) =
          (.error (wrapVerb verb disp (.msg (goLowerFirst j.hostMessage))),
           [])) ∧
      (j.hostSuccess ≠ 1 → j.hostMessage = "" →
        waitJob verb disp config root swap (qs ++ .ok j :: rest) =
          (.error (wrapVerb verb disp
            (.msg ("job " ++ toString j.jobID ++ " failed silently"))), []))) := by
  refine ⟨?_, ?_, ?_, ?_⟩
  · intro verb disp config root swap polls e hnf hlast
    rw [waitJob, waitLoop_deadline verb disp config root swap polls none hnf,
      hlast]
    rfl
  · intro verb disp config root swap polls hok
    have hnf : ∀ p ∈ polls, ∀ j, p = .ok j → j.hostFinish = "" := by
      intro p hp j hj
      obtain ⟨j2, hj2, hf2⟩ := hok p hp
      rw [hj] at hj2
      cases hj2
      exact hf2
    have hnone : lastPollError polls = none :=
      lastPollError_none polls (fun p hp => ⟨(hok p hp).choose, (hok p hp).choose_spec.1⟩)
    rw [waitJob, waitLoop_deadline verb disp config root swap polls none hnf,
      hnone]
    rfl
  · intro verb disp config root swap polls i
    exact waitLoop_no_shutdown verb disp config root swap polls none i
  · intro verb disp config root swap qs rest j hq hf
    have hbase := waitLoop_finish verb disp config root swap j rest hf qs none hq
    refine ⟨?_, ?_, ?_⟩
    · intro hs
      rw [waitJob, hbase]
      have : j.err = none := by simp [linodeJobInfo.err, hs]
      rw [this]
    · intro hs hm
      rw [waitJob, hbase]
      have : j.err = some (.msg (goLowerFirst j.hostMessage)) := by
        simp [linodeJobInfo.err, hs, hf, hm]
      rw [this]
    · intro hs hm
      rw [waitJob, hbase]
      have : j.err =
          some (.msg ("job " ++ toString j.jobID ++ " failed silently")) := by
        simp [linodeJobInfo.err, hs, hf, hm]
      rw [this]

/-- Witness for `waitJob_spec`: an unfinished poll followed by a failing poll
surfaces the wrapped poll error at the deadline with no rollback; a first
poll observing a successful finish returns the job at once. -/
theorem waitJob_spec_witness :
    waitJob "boot" "srv" 5 6 7
      [.ok ⟨1, 1, "boot", "l", "s", "", 0, ""⟩, .error (.msg "x")] =
      (.error (.msg "cannot boot srv: x"), []) ∧
    waitJob "boot" "srv" 5 6 7
      [.ok ⟨1, 1, "boot", "l", "s", "fin", 1, ""⟩, .error (.msg "x")] =
      (.ok ⟨1, 1, "boot", "l", "s", "fin", 1, ""⟩, []) := by
  constructor
  · exact (waitJob_spec.1 "boot" "srv" 5 6 7
      [.ok ⟨1, 1, "boot", "l", "s", "", 0, ""⟩, .error (.msg "x")] (.msg "x")
      (by
        intro p hp j hj
        simp at hp
        rcases hp with h | h <;> rw [h] at hj <;> simp at hj
        rw [← hj]) rfl).trans (by rfl)
  · exact ((waitJob_spec.2.2.2 "boot" "srv" 5 6 7 []
      [.error (.msg "x")] ⟨1, 1, "boot", "l", "s", "fin", 1, ""⟩
      (by simp) (by simp)).1 rfl).trans (by rfl)

/-! ### Helper lemmas for allocation -/

/-- A setup run over a non-fatal environment never produces the fatal
error. -/
theorem setup_not_fatal (s : linodeServer) (image : String) (env : SetupEnv)
    (h : env.NonFatal) : resultFatal (setup s image env) = false := by
  obtain ⟨hip, hdisk, hconfig, hboot, hwait⟩ := h
  cases hi : env.ipRes with
  | error e => simp [setup, resultFatal, hi, hip e hi]
  | ok ip =>
    cases hd : env.diskRes with
    | error e => simp [setup, resultFatal, hi, hd, hdisk e hd]
    | ok pr =>
      obtain ⟨rjOpt, sjOpt⟩ := pr
      cases rjOpt with
      | none => cases sjOpt <;> simp [setup, resultFatal, hi, hd]
      | some rj =>
        cases sjOpt with
        | none => simp [setup, resultFatal, hi, hd]
        | some sj =>
          cases hc : env.configRes with
          | error e => simp [setup, resultFatal, hi, hd, hc, hconfig e hc]
          | ok configID =>
            cases hb : env.bootRes with
            | error e => simp [setup, resultFatal, hi, hd, hc, hb, hboot e hb]
            | ok bj =>
              cases hw : env.waitRes with
              | error e =>
                simp [setup, resultFatal, hi, hd, hc, hb, hw, hwait e hw]
              | ok ji => simp [setup, resultFatal, hi, hd, hc, hb, hw]

/-- The allocation scan over non-fatal setup environments never produces the
fatal error. -/
theorem allocLoop_not_fatal (image : String)
    (envFor : linodeServer → SetupEnv) (h : ∀ s, (envFor s).NonFatal) :
    ∀ servers, resultFatal (allocLoop image envFor servers) = false := by
  intro servers
  induction servers with
  | nil => rfl
  | cons s rest ih =>
    rw [allocLoop]
    by_cases hs : s.status ≠ linodePoweredOff
    · rw [if_pos hs]
      exact ih
    · rw [if_neg hs]
      have hns := setup_not_fatal s image (envFor s) (h s)
      cases hst : setup s image (envFor s) with
      | panics => simp [resultFatal]
      | ok out =>
        rw [hst] at hns
        exact hns

/-- The allocation scan over a list with no powered-off server reaches the
end and reports the retriable none-available error. -/
theorem allocLoop_none_available (image : String)
    (envFor : linodeServer → SetupEnv) :
    ∀ servers, (∀ s ∈ servers, s.status ≠ linodePoweredOff) →
      allocLoop image envFor servers =
        .ok (.error (.msg "no powered off servers in Linode account"), []) := by
  intro servers
  induction servers with
  | nil => intro _; rfl
  | cons s rest ih =>
    intro h
    rw [allocLoop, if_pos (h s (List.mem_cons_self _ _))]
    exact ih (fun q hq => h q (List.mem_cons_of_mem _ hq))

/-- C2: `Allocate` returns the distinguished fatal error exactly when the
machine list is empty; with machines present but none powered off it returns
the ordinary retriable none-available error; and with powered-off machines
present it provisions the first one in list order, returning on success a
machine whose address, root disk ID, swap disk ID, and configuration ID are
all populated from the provisioning responses. -/
theorem Allocate_spec :
    (∀ (image : String) (envFor : linodeServer → SetupEnv),
      Allocate (.ok []) image envFor =
        .ok (.error (.fatal "no servers in Linode account"), [])) ∧
    (∀ (servers : List linodeServer) (image : String)
      (envFor : linodeServer → SetupEnv),
      (∀ s, (envFor s).NonFatal) →
      (resultFatal (Allocate (.ok servers) image envFor) = true ↔
        servers = [])) ∧
    (∀ (servers : List linodeServer) (image : String)
      (envFor : linodeServer → SetupEnv),
      servers ≠ [] → (∀ s ∈ servers, s.status ≠ linodePoweredOff) →
      Allocate (.ok servers) image envFor =
        .ok (.error (.msg "no powered off servers in Linode account"), [])) ∧
    (∀ (pre post : List linodeServer) (s : linodeServer) (image : String)
      (envFor : linodeServer → SetupEnv) (ip : linodeIP)
      (rj sj : linodeDiskJob) (configID : Int) (bj : linodeJob)
      (ji : linodeJobInfo),
      (∀ p ∈ pre, p.status ≠ linodePoweredOff) →
      s.status = linodePoweredOff →
      envFor s = ⟨.ok ip, .ok (some rj, some sj), .ok configID, .ok bj,
                  .ok ji⟩ →
      ip.ipAddress ≠ "" → rj.diskID ≠ 0 → sj.diskID ≠ 0 → configID ≠ 0 →
      Allocate (.ok (pre ++ s :: post)) image envFor =
        .ok (.ok (provision s image ip.ipAddress rj.diskID sj.diskID configID),
             []) ∧
      (provision s image ip.ipAddress rj.diskID sj.diskID configID).addr ≠ "" ∧
      (provision s image ip.ipAddress rj.diskID sj.diskID configID).root ≠ 0 ∧
      (provision s image ip.ipAddress rj.diskID sj.diskID configID).swap ≠ 0 ∧
      (provision s image ip.ipAddress rj.diskID sj.diskID configID).config ≠ 0) := by
  refine ⟨?_, ?_, ?_, ?_⟩
  · intro image envFor
    rfl
  · intro servers image envFor h
    cases servers with
    | nil => simp [Allocate, resultFatal, GoErr.isFatal]
    | cons s rest =>
      have hnf : resultFatal (allocLoop image envFor (s :: rest)) = false :=
        allocLoop_not_fatal image envFor h (s :: rest)
      constructor
      · intro habs
        rw [show Allocate (.ok (s :: rest)) image envFor =
            allocLoop image envFor (s :: rest) from rfl] at habs
        rw [hnf] at habs
        exact absurd habs (by simp)
      · intro habs
        exact absurd habs (by simp)
  · intro servers image envFor hne hall
    cases servers with
    | nil => exact absurd rfl hne
    | cons s rest =>
      exact allocLoop_none_available image envFor (s :: rest) hall
  · intro pre post s image envFor ip rj sj configID bj ji hpre hs henv hip hrj
      hsj hcid
    have hsetup : setup s image (envFor s) =
        .ok (.ok (provision s image ip.ipAddress rj.diskID sj.diskID configID),
             []) := by
      rw [henv]
      simp [setup, provision]
    have halloc : ∀ pre2, (∀ p ∈ pre2, p.status ≠ linodePoweredOff) →
        allocLoop image envFor (pre2 ++ s :: post) =
          .ok (.ok (provision s image ip.ipAddress rj.diskID sj.diskID
                      configID), []) := by
      intro pre2
      induction pre2 with
      | nil =>
        intro _
        rw [List.nil_append, allocLoop, if_neg (by simp [hs]), hsetup]
      | cons p pre2 ih =>
        intro hp
        rw [List.cons_append, allocLoop,
          if_pos (hp p (List.mem_cons_self _ _))]
        exact ih (fun q hq => hp q (List.mem_cons_of_mem _ hq))
    refine ⟨?_, by simpa [provision] using hip, by simpa [provision] using hrj,
      by simpa [provision] using hsj, by simpa [provision] using hcid⟩
    cases pre with
    | nil => exact halloc [] (by simp)
    | cons p pre2 => exact halloc (p :: pre2) hpre

/-- Witness for `Allocate_spec`: an account with a running machine followed
by a powered-off machine provisions the powered-off one, populating its
address, disk IDs, and config ID. -/
theorem Allocate_spec_witness :
    Allocate
      (.ok [⟨1, "a", 1, "", "", 0, 0, 0⟩, ⟨2, "b", 2, "", "", 0, 0, 0⟩])
      "ubuntu-16.04"
      (fun _ => ⟨.ok ⟨9, 2, 1, "10.0.0.5", ""⟩,
                 .ok (some ⟨11, 21⟩, some ⟨12, 22⟩), .ok 33, .ok ⟨44⟩,
                 .ok ⟨44, 2, "boot", "l", "s", "fin", 1, ""⟩⟩) =
      .ok (.ok ⟨2, "b", 2, "10.0.0.5", "ubuntu-16.04", 33, 11, 12⟩, []) :=
  (Allocate_spec.2.2.2 [⟨1, "a", 1, "", "", 0, 0, 0⟩] []
    ⟨2, "b", 2, "", "", 0, 0, 0⟩ "ubuntu-16.04"
    (fun _ => ⟨.ok ⟨9, 2, 1, "10.0.0.5", ""⟩,
               .ok (some ⟨11, 21⟩, some ⟨12, 22⟩), .ok 33, .ok ⟨44⟩,
               .ok ⟨44, 2, "boot", "l", "s", "fin", 1, ""⟩⟩)
    ⟨9, 2, 1, "10.0.0.5", ""⟩ ⟨11, 21⟩ ⟨12, 22⟩ 33 ⟨44⟩
    ⟨44, 2, "boot", "l", "s", "fin", 1, ""⟩
    (by decide) rfl rfl (by decide) (by decide) (by decide) (by decide)).1

end Spread
